import Mathlib

/-!
Shallow embedding of the transfer contract (src/contract.rs, src/state.rs,
src/error.rs, src/msg.rs).

The contract keeps a singleton `State { owner, fees }` item and a map
`BALANCES : (Addr, String) -> Uint128`.  `Uint128` values are modelled as
`Nat` together with the explicit bound `U128MAX`; operations that panic or
error in Rust (overflowing add, underflowing sub, `multiply_ratio`
overflow) are modelled as `Option`, since a CosmWasm execution that panics
or errors commits nothing.
-/

namespace Transfer

/-- Addresses are modelled as strings; `deps.api.addr_validate` is an
external collaborator (the spec places address-syntax validation out of
scope), so the operations below receive already-validated addresses. -/
abbrev Addr := String

abbrev Denom := String

/-- Largest value of the `Uint128` type. -/
def U128MAX : Nat := 2 ^ 128 - 1

/-- Embeds `State` from src/state.rs: contract owner and fee percentage
(`fees : u8` in the source, here a `Nat`). -/
structure State where
  owner : Addr
  fees : Nat
deriving Repr, DecidableEq

/-- Key of the `BALANCES` map from src/state.rs: `(&Addr, String)`. -/
abbrev BalKey := Addr × Denom

/-- The `BALANCES` map, as an association list of key-value pairs. -/
abbrev Balances := List (BalKey × Nat)

/-- Whole contract storage: the `STATE` item (absent before `instantiate`)
and the `BALANCES` map. -/
structure Storage where
  state : Option State
  balances : Balances
deriving Repr, DecidableEq

/-- Embeds `ContractError` from src/error.rs. -/
inductive ContractError where
  | std : ContractError
  | insufficientBalanceError (balance requested : Nat) : ContractError
  | invalidFeePercentageError (fees : Nat) : ContractError
deriving Repr, DecidableEq

/-- Embeds `BALANCES.may_load(storage, key)`: the value at the first entry
with this key, if any. -/
def mayLoad (b : Balances) (k : BalKey) : Option Nat :=
  match b with
  | [] => none
  | (k', v) :: rest => if k' = k then some v else mayLoad rest k

/-- Embeds `BALANCES.save(storage, key, value)`: replace the first entry
with this key, or append a new entry. -/
def save (b : Balances) (k : BalKey) (v : Nat) : Balances :=
  match b with
  | [] => [(k, v)]
  | (k', v') :: rest => if k' = k then (k, v) :: rest else (k', v') :: save rest k v

/-- Embeds `BALANCES.update(storage, key, action)` from cw-storage-plus:
load the current optional value, run the action, save the result (`none`
models the action returning an error, which aborts the call). -/
def update (b : Balances) (k : BalKey) (f : Option Nat → Option Nat) : Option Balances :=
  match f (mayLoad b k) with
  | none => none
  | some v => some (save b k v)

/-- Balance as read everywhere in the source:
`may_load(...)?.unwrap_or_default()`. -/
def getBalance (b : Balances) (k : BalKey) : Nat :=
  (mayLoad b k).getD 0

/-- Embeds `Uint128` addition (`+` panics on overflow past `U128MAX`). -/
def addU128 (a c : Nat) : Option Nat :=
  if a + c ≤ U128MAX then some (a + c) else none

/-- Embeds `Uint128::checked_sub` (and `-`, which panics exactly when
`checked_sub` errors): fails on underflow. -/
def checkedSub (a c : Nat) : Option Nat :=
  if c ≤ a then some (a - c) else none

/-- Embeds `Uint128::multiply_ratio(num, den)`: the product is taken in a
wider intermediate type (`Nat` here, `U256` in the source), then divided;
fails (panics) when the denominator is zero or the quotient exceeds
`U128MAX`. -/
def multiplyRatioU256 (x num den : Nat) : Option Nat :=
  if den = 0 then none
  else if x * num / den ≤ U128MAX then some (x * num / den) else none

/-- Fee share of one deposited coin, source line 85:
`coin.amount.multiply_ratio(fees, Uint128::new(100))`. -/
def feeShare (amount fees : Nat) : Nat := amount * fees / 100

/-- First recipient's share, source lines 95-96:
`left_over = amount - owner_fees; split_amount = left_over.shr(1)`. -/
def r1Share (amount fees : Nat) : Nat := (amount - feeShare amount fees) / 2

/-- Second recipient's share, source line 97:
`left_over - split_amount`. -/
def r2Share (amount fees : Nat) : Nat :=
  (amount - feeShare amount fees) - r1Share amount fees

/-- One `BALANCES.update` with the crediting closure
`|balance| Ok(balance.unwrap_or_default() + amt)` used three times in
`execute::send` (lines 86-92, 98-104, 105-111). -/
def credit (b : Balances) (k : BalKey) (amt : Nat) : Option Balances :=
  update b k (fun bal => addU128 (bal.getD 0) amt)

/-- Body of the per-coin loop of `execute::send` (src/contract.rs lines
83-112): compute the owner's fee via `multiply_ratio`, credit the owner,
split what is left between the two recipient addresses (`shr(1)` is
division by two), crediting the odd unit to `address2`. -/
def sendCoin (st : State) (a1 a2 : Addr) (b : Balances) (denom : Denom)
    (amount : Nat) : Option Balances :=
  (multiplyRatioU256 amount st.fees 100).bind fun ownerFees =>
  (credit b (st.owner, denom) ownerFees).bind fun b1 =>
  (checkedSub amount ownerFees).bind fun leftOver =>
  let splitAmount := leftOver / 2
  (checkedSub leftOver splitAmount).bind fun leftOver2 =>
  (credit b1 (a1, denom) splitAmount).bind fun b2 =>
  credit b2 (a2, denom) leftOver2

/-- Embeds the loop of `execute::send` over `info.funds` (each fund is a
`(denom, amount)` coin); a failure in any iteration aborts the call. -/
def send (st : State) (a1 a2 : Addr) : Balances → List (Denom × Nat) → Option Balances
  | b, [] => some b
  | b, (d, amt) :: rest =>
      (sendCoin st a1 a2 b d amt).bind fun b' => send st a1 a2 b' rest

/-- The `BankMsg::Send { to_address, amount: coins(amount, denom) }`
transfer instruction emitted by `execute::withdraw`. -/
structure BankSend where
  toAddress : Addr
  amount : Nat
  denom : Denom
deriving Repr, DecidableEq

/-- Embeds `execute::withdraw` (src/contract.rs lines 123-157): read the
caller's balance (default 0), reject with `InsufficientBalanceError` when
`amount > balance`, otherwise debit via `BALANCES.update` with the
`checked_sub` closure and emit a `BankMsg::Send` to the caller. -/
def withdraw (s : Storage) (sender : Addr) (amount : Nat) (denom : Denom) :
    Except ContractError (Storage × BankSend) :=
  let balance := (mayLoad s.balances (sender, denom)).getD 0
  if balance < amount then
    .error (.insufficientBalanceError balance amount)
  else
    match update s.balances (sender, denom)
        (fun bal => checkedSub (bal.getD 0) amount) with
    | none => .error .std
    | some b' => .ok ({ s with balances := b' }, ⟨sender, amount, denom⟩)

/-- Embeds `execute::withdraw_all` (src/contract.rs lines 159-169): read
the caller's balance (default 0) and delegate to `withdraw` with exactly
that amount. -/
def withdrawAll (s : Storage) (sender : Addr) (denom : Denom) :
    Except ContractError (Storage × BankSend) :=
  let balance := (mayLoad s.balances (sender, denom)).getD 0
  withdraw s sender balance denom

/-- Storage after a `withdraw` call as committed by the host: an error
reverts every write. -/
def applyWithdraw (s : Storage) (sender : Addr) (amount : Nat) (denom : Denom) :
    Storage :=
  match withdraw s sender amount denom with
  | .ok (s', _) => s'
  | .error _ => s

/-- Embeds `std::str::from_utf8` applied to the one-byte slice
`&[msg.fees]` (src/contract.rs line 41): a single byte is valid UTF-8
exactly when it is below 128 (ASCII), and then decodes to itself. -/
def utf8FromSingleByte (b : Nat) : Option (List Nat) :=
  if b < 128 then some [b] else none

/-- Decimal rendering of a number below 1000 as a list of ASCII digit
bytes, used to state what the `fees` response attribute is NOT. -/
def decimalBytes (n : Nat) : List Nat :=
  if n < 10 then [48 + n]
  else if n < 100 then [48 + n / 10, 48 + n % 10]
  else [48 + n / 100, 48 + n / 10 % 10, 48 + n % 10]

/-- Attributes of the `Response` built by `instantiate`: method name,
owner, and the bytes of the decoded `fees` attribute string. -/
structure InstResponse where
  method : String
  owner : Addr
  feesAttr : List Nat
deriving Repr, DecidableEq

/-- Embeds `instantiate` (src/contract.rs lines 17-44): reject
`fees > 100` with `InvalidFeePercentageError`, otherwise save
`State { owner: sender, fees }` and build the response whose `fees`
attribute is `from_utf8(&[msg.fees]).unwrap()`; the outer `Option` is
`none` exactly when that `unwrap` would panic.  (`set_contract_version`
writes a cw2 item outside this model.) -/
def instantiate (s : Storage) (sender : Addr) (fees : Nat) :
    Option (Except ContractError (Storage × InstResponse)) :=
  if 100 < fees then
    some (.error (.invalidFeePercentageError fees))
  else
    match utf8FromSingleByte fees with
    | none => none
    | some bytes =>
        some (.ok ({ s with state := some { owner := sender, fees := fees } },
          { method := "instantiate", owner := sender, feesAttr := bytes }))

/-- Storage after an `instantiate` call as committed by the host: an error
or a panic commits nothing. -/
def applyInstantiate (s : Storage) (sender : Addr) (fees : Nat) : Storage :=
  match instantiate s sender fees with
  | some (.ok (s', _)) => s'
  | _ => s

/-- Embeds `query::balance` (src/contract.rs lines 204-212) on a validated
account address: `may_load(...)?.unwrap_or_default()`, a pure read. -/
def queryBalance (s : Storage) (account : Addr) (denom : Denom) : Nat :=
  (mayLoad s.balances (account, denom)).getD 0

/-- Concrete storage used by witnesses: the configuration and account1
balance reached in the repository's own tests (fee 10, balance 45 usei). -/
def sampleStorage : Storage :=
  { state := some { owner := "creator", fees := 10 },
    balances := [((("account1", "usei") : BalKey), 45)] }

/-- Concrete storage with an empty balance table, used by witnesses. -/
def emptyStorage : Storage :=
  { state := some { owner := "creator", fees := 10 }, balances := [] }

/-- Total of all balances recorded for one denomination. -/
def totalDenom (b : Balances) (d : Denom) : Nat :=
  match b with
  | [] => 0
  | ((_, d'), v) :: rest => (if d' = d then v else 0) + totalDenom rest d

/-- Total deposited in one denomination across a funds list. -/
def fundsTotal (funds : List (Denom × Nat)) (d : Denom) : Nat :=
  match funds with
  | [] => 0
  | (d', amt) :: rest => (if d' = d then amt else 0) + fundsTotal rest d

/-! Helper lemmas about the store operations. -/

theorem mayLoad_save_self (b : Balances) (k : BalKey) (v : Nat) :
    mayLoad (save b k v) k = some v := by
  induction b with
  | nil => simp [save, mayLoad]
  | cons p rest ih =>
      obtain ⟨k', v'⟩ := p
      by_cases hk : k' = k
      · simp [save, hk, mayLoad]
      · simp [save, hk, mayLoad, ih]

theorem mayLoad_save_other (b : Balances) (k k' : BalKey) (v : Nat)
    (h : k' ≠ k) : mayLoad (save b k v) k' = mayLoad b k' := by
  induction b with
  | nil => simp [save, mayLoad, Ne.symm h]
  | cons p rest ih =>
      obtain ⟨k'', v''⟩ := p
      by_cases hk : k'' = k
      · subst hk
        simp [save, mayLoad, Ne.symm h]
      · simp [save, hk, mayLoad, ih]

theorem credit_eq_some (b : Balances) (k : BalKey) (amt : Nat) (b' : Balances)
    (h : credit b k amt = some b') :
    b' = save b k (getBalance b k + amt) := by
  unfold credit update addU128 at h
  by_cases hle : (mayLoad b k).getD 0 + amt ≤ U128MAX
  · simp only [hle, if_pos] at h
    simp only [Option.some.injEq] at h
    rw [← h]
    rfl
  · simp [hle] at h

theorem totalDenom_save (b : Balances) (a : Addr) (dd : Denom) (v : Nat) (d : Denom) :
    totalDenom (save b (a, dd) v) d + (if dd = d then getBalance b (a, dd) else 0) =
      totalDenom b d + (if dd = d then v else 0) := by
  induction b with
  | nil => simp [save, totalDenom, getBalance, mayLoad]
  | cons p rest ih =>
      obtain ⟨⟨a', d'⟩, w⟩ := p
      by_cases hk : (a', d') = (a, dd)
      · obtain ⟨ha, hd⟩ := Prod.mk.injEq .. ▸ hk
        subst ha; subst hd
        simp only [save, if_pos, totalDenom, getBalance, mayLoad]
        simp only [if_pos rfl, Option.getD_some]
        by_cases hdd : d' = d <;> simp [hdd] <;> omega
      · have hload : getBalance ((( a', d'), w) :: rest) (a, dd) = getBalance rest (a, dd) := by
          simp [getBalance, mayLoad, hk]
        simp only [save, hk, if_neg, totalDenom, hload]
        have := ih
        omega

theorem credit_totalDenom (b : Balances) (a : Addr) (dd : Denom) (amt : Nat)
    (b' : Balances) (h : credit b (a, dd) amt = some b') (d : Denom) :
    totalDenom b' d = totalDenom b d + (if dd = d then amt else 0) := by
  have hb' := credit_eq_some b (a, dd) amt b' h
  subst hb'
  have := totalDenom_save b a dd (getBalance b (a, dd) + amt) d
  by_cases hdd : dd = d <;> simp [hdd] at this ⊢ <;> omega

theorem credit_mayLoad_other (b : Balances) (k k' : BalKey) (amt : Nat)
    (b' : Balances) (h : credit b k amt = some b') (hk : k' ≠ k) :
    mayLoad b' k' = mayLoad b k' := by
  rw [credit_eq_some b k amt b' h]
  exact mayLoad_save_other b k k' _ hk

/-! Helper lemmas about the share arithmetic and `sendCoin`. -/

theorem feeShare_le (amount fees : Nat) (h : fees ≤ 100) :
    feeShare amount fees ≤ amount := by
  unfold feeShare
  calc amount * fees / 100 ≤ amount * 100 / 100 :=
        Nat.div_le_div_right (Nat.mul_le_mul_left amount h)
    _ = amount := by omega

theorem share_sum (amount fees : Nat) (h : fees ≤ 100) :
    feeShare amount fees + r1Share amount fees + r2Share amount fees = amount := by
  have hle := feeShare_le amount fees h
  unfold r2Share r1Share
  generalize feeShare amount fees = F at *
  omega

theorem multiplyRatioU256_eq_some (x num : Nat) (y : Nat)
    (h : multiplyRatioU256 x num 100 = some y) : y = x * num / 100 := by
  unfold multiplyRatioU256 at h
  by_cases hle : x * num / 100 ≤ U128MAX
  · simpa [hle] using h.symm
  · simp [hle] at h

theorem checkedSub_eq_some (a c y : Nat) (h : checkedSub a c = some y) :
    c ≤ a ∧ y = a - c := by
  unfold checkedSub at h
  by_cases hle : c ≤ a
  · simp [hle] at h
    exact ⟨hle, h.symm⟩
  · simp [hle] at h

theorem sendCoin_total (st : State) (a1 a2 : Addr) (b : Balances) (d : Denom)
    (amt : Nat) (b' : Balances) (h : sendCoin st a1 a2 b d amt = some b')
    (d' : Denom) :
    totalDenom b' d' = totalDenom b d' + (if d = d' then amt else 0) := by
  unfold sendCoin at h
  simp only [Option.bind_eq_some] at h
  obtain ⟨ofv, hof, b1, hb1, lo, hlo, lo2, hlo2, b2, hb2, hb'⟩ := h
  obtain ⟨hofle, hloeq⟩ := checkedSub_eq_some amt ofv lo hlo
  obtain ⟨-, hlo2eq⟩ := checkedSub_eq_some lo (lo / 2) lo2 hlo2
  have t1 := credit_totalDenom b st.owner d ofv b1 hb1 d'
  have t2 := credit_totalDenom b1 a1 d (lo / 2) b2 hb2 d'
  have t3 := credit_totalDenom b2 a2 d lo2 b' hb' d'
  by_cases hd : d = d' <;> simp [hd] at t1 t2 t3 ⊢ <;> omega

theorem send_total (st : State) (a1 a2 : Addr) :
    ∀ (funds : List (Denom × Nat)) (b b' : Balances),
      send st a1 a2 b funds = some b' →
      ∀ d, totalDenom b' d = totalDenom b d + fundsTotal funds d := by
  intro funds
  induction funds with
  | nil =>
      intro b b' h d
      simp only [send, Option.some.injEq] at h
      subst h
      simp [fundsTotal]
  | cons p rest ih =>
      intro b b' h d
      obtain ⟨dp, amtp⟩ := p
      simp only [send, Option.bind_eq_some] at h
      obtain ⟨bmid, hc, hrest⟩ := h
      have h1 := sendCoin_total st a1 a2 b dp amtp bmid hc d
      have h2 := ih bmid b' hrest d
      simp only [fundsTotal]
      omega

/-! Helper lemmas about `withdraw`. -/

theorem withdraw_spec (s : Storage) (sender : Addr) (amount : Nat) (d : Denom)
    (h : amount ≤ getBalance s.balances (sender, d)) :
    withdraw s sender amount d =
      .ok (⟨s.state,
             save s.balances (sender, d) (getBalance s.balances (sender, d) - amount)⟩,
           { toAddress := sender, amount := amount, denom := d }) := by
  have hbal : ¬ ((mayLoad s.balances (sender, d)).getD 0 < amount) := by
    simp only [getBalance] at h
    omega
  have hupd : update s.balances (sender, d) (fun bal => checkedSub (bal.getD 0) amount)
      = some (save s.balances (sender, d) (getBalance s.balances (sender, d) - amount)) := by
    unfold update checkedSub
    simp only [getBalance] at h ⊢
    rw [if_pos h]
  simp only [withdraw, hupd]
  rw [if_neg hbal]

theorem withdraw_spec_insufficient (s : Storage) (sender : Addr) (amount : Nat)
    (d : Denom) (h : getBalance s.balances (sender, d) < amount) :
    withdraw s sender amount d =
      .error (.insufficientBalanceError (getBalance s.balances (sender, d)) amount) := by
  have hlt : (mayLoad s.balances (sender, d)).getD 0 < amount := by
    simpa [getBalance] using h
  simp only [withdraw]
  rw [if_pos hlt]
  rfl

/-! Claim theorems. -/

/-- C1: for every deposit-and-split call, with the configured fee percent
in `[0, 100]`, each `(denom, amount)` pair splits into three shares that
sum to exactly `amount`, and a successful call increases the total of all
balances in each denomination by exactly the total deposited in it — with
no distinctness assumption on owner, recipient1 and recipient2. -/
theorem send_conservation (st : State) (a1 a2 : Addr) (b b' : Balances)
    (funds : List (Denom × Nat)) (hf : st.fees ≤ 100)
    (h : send st a1 a2 b funds = some b') :
    (∀ p ∈ funds,
      feeShare p.2 st.fees + r1Share p.2 st.fees + r2Share p.2 st.fees = p.2) ∧
    (∀ d, totalDenom b' d = totalDenom b d + fundsTotal funds d) :=
  ⟨fun p _ => share_sum p.2 st.fees hf, send_total st a1 a2 funds b b' h⟩

/-- Witness for C1 at the concrete deposit of the repository's own test
`send_basic`: 10 usei at 10 percent fee gives shares 1, 4, 5. -/
theorem send_conservation_witness :
    (∀ p ∈ [(("usei" : String), 10)],
      feeShare p.2 (10 : Nat) + r1Share p.2 10 + r2Share p.2 10 = p.2) ∧
    (∀ d, totalDenom [((("owner", "usei") : Transfer.BalKey), 1),
        ((("account1", "usei") : Transfer.BalKey), 4),
        ((("account2", "usei") : Transfer.BalKey), 5)] d =
      totalDenom [] d + fundsTotal [("usei", 10)] d) :=
  send_conservation { owner := "owner", fees := 10 } "account1" "account2"
    [] _ [("usei", 10)] (by decide) (by decide)

/-- C5: recipient1's share is `floor((amount - fee_share) / 2)`,
recipient2's share is the remainder minus that, and recipient2's share
exceeds recipient1's by exactly 0 or 1 (recipient2 absorbs the odd unit). -/
theorem split_fairness (amount fees : Nat) :
    r1Share amount fees = (amount - feeShare amount fees) / 2 ∧
    r2Share amount fees = (amount - feeShare amount fees) - r1Share amount fees ∧
    (r2Share amount fees = r1Share amount fees ∨
      r2Share amount fees = r1Share amount fees + 1) := by
  refine ⟨rfl, rfl, ?_⟩
  unfold r2Share r1Share
  generalize feeShare amount fees = F
  omega

/-- C6: the owner's fee share is `floor(amount * fee_percent / 100)` —
exactly what `multiply_ratio` computes on an in-range amount — and for a
fixed amount it is monotonically non-decreasing in the fee percent over
`[0, 100]`. -/
theorem fee_bound_monotone (amount fees fees' : Nat)
    (h1 : fees ≤ fees') (h2 : fees' ≤ 100) (hA : amount ≤ U128MAX) :
    feeShare amount fees = amount * fees / 100 ∧
    multiplyRatioU256 amount fees 100 = some (feeShare amount fees) ∧
    feeShare amount fees ≤ feeShare amount fees' := by
  refine ⟨rfl, ?_, ?_⟩
  · have hle : amount * fees / 100 ≤ U128MAX :=
      le_trans (feeShare_le amount fees (le_trans h1 h2)) hA
    simp [multiplyRatioU256, feeShare, hle]
  · exact Nat.div_le_div_right (Nat.mul_le_mul_left amount h1)

/-- Witness for C6 at amount 10, fee percents 5 and 10. -/
theorem fee_bound_monotone_witness :
    feeShare 10 5 = 10 * 5 / 100 ∧
    multiplyRatioU256 10 5 100 = some (feeShare 10 5) ∧
    feeShare 10 5 ≤ feeShare 10 10 :=
  fee_bound_monotone 10 5 10 (by decide) (by decide) (by decide)

/-- C2: withdrawing `amount ≤ balance` succeeds, debits the caller's
`(account, denom)` entry by exactly `amount`, leaves every other balance
entry and the configuration unchanged, and emits one bank transfer to the
caller of exactly `amount` in `denom`. -/
theorem withdraw_ok (s : Storage) (sender : Addr) (amount : Nat) (d : Denom)
    (h : amount ≤ getBalance s.balances (sender, d)) :
    ∃ s', withdraw s sender amount d =
        .ok (s', { toAddress := sender, amount := amount, denom := d }) ∧
      s'.state = s.state ∧
      getBalance s'.balances (sender, d) = getBalance s.balances (sender, d) - amount ∧
      ∀ k, k ≠ (sender, d) → mayLoad s'.balances k = mayLoad s.balances k := by
  refine ⟨⟨s.state,
      save s.balances (sender, d) (getBalance s.balances (sender, d) - amount)⟩,
    withdraw_spec s sender amount d h, rfl, ?_, ?_⟩
  · simp [getBalance, mayLoad_save_self]
  · intro k hk
    exact mayLoad_save_other s.balances (sender, d) k _ hk

/-- Witness for C2 at the repository's own test `withdraw_basic`:
account1 withdraws 25 usei from a balance of 45. -/
theorem withdraw_ok_witness :
    ∃ s', withdraw sampleStorage "account1" 25 "usei" =
        .ok (s', { toAddress := "account1", amount := 25, denom := "usei" }) ∧
      s'.state = sampleStorage.state ∧
      getBalance s'.balances ("account1", "usei") =
        getBalance sampleStorage.balances ("account1", "usei") - 25 ∧
      ∀ k, k ≠ (("account1", "usei") : Transfer.BalKey) →
        mayLoad s'.balances k = mayLoad sampleStorage.balances k :=
  withdraw_ok sampleStorage "account1" 25 "usei" (by decide)

/-- C3: withdrawing more than the recorded balance (0 when the entry is
absent) fails with `InsufficientBalanceError` carrying exactly that
balance and the requested amount, and commits no state change. -/
theorem withdraw_insufficient (s : Storage) (sender : Addr) (amount : Nat)
    (d : Denom) (h : getBalance s.balances (sender, d) < amount) :
    withdraw s sender amount d =
      .error (.insufficientBalanceError (getBalance s.balances (sender, d)) amount) ∧
    applyWithdraw s sender amount d = s := by
  have hw := withdraw_spec_insufficient s sender amount d h
  exact ⟨hw, by simp [applyWithdraw, hw]⟩

/-- Witness for C3 at the repository's own test `withdraw_fail`:
account1 requests 46 usei with a balance of 45. -/
theorem withdraw_insufficient_witness :
    withdraw sampleStorage "account1" 46 "usei" =
      .error (.insufficientBalanceError
        (getBalance sampleStorage.balances ("account1", "usei")) 46) ∧
    applyWithdraw sampleStorage "account1" 46 "usei" = sampleStorage :=
  withdraw_insufficient sampleStorage "account1" 46 "usei" (by decide)

/-- C7: withdraw-all on a zero recorded balance (including an absent
entry) succeeds, leaves the balance read of every `(account, denom)` key
and the configuration unchanged, and performs a withdrawal of zero. -/
theorem withdraw_all_zero (s : Storage) (sender : Addr) (d : Denom)
    (h : getBalance s.balances (sender, d) = 0) :
    ∃ s', withdrawAll s sender d =
        .ok (s', { toAddress := sender, amount := 0, denom := d }) ∧
      s'.state = s.state ∧
      ∀ k, getBalance s'.balances k = getBalance s.balances k := by
  have hbal : (mayLoad s.balances (sender, d)).getD 0 = 0 := by
    simpa [getBalance] using h
  have hwa : withdrawAll s sender d = withdraw s sender 0 d := by
    simp only [withdrawAll, hbal]
  refine ⟨⟨s.state, save s.balances (sender, d) (getBalance s.balances (sender, d) - 0)⟩,
    hwa ▸ withdraw_spec s sender 0 d (Nat.zero_le _), rfl, ?_⟩
  intro k
  by_cases hk : k = (sender, d)
  · subst hk
    simp [getBalance, mayLoad_save_self, h]
  · simp [getBalance, mayLoad_save_other s.balances (sender, d) k _ hk]

/-- Witness for C7: withdraw-all on an empty balance table. -/
theorem withdraw_all_zero_witness :
    ∃ s', withdrawAll emptyStorage "account1" "usei" =
        .ok (s', { toAddress := "account1", amount := 0, denom := "usei" }) ∧
      s'.state = emptyStorage.state ∧
      ∀ k, getBalance s'.balances k = getBalance emptyStorage.balances k :=
  withdraw_all_zero emptyStorage "account1" "usei" (by decide)

/-- C8: the balance query returns 0 when no entry exists for the
`(account, denom)` key; it is a pure read of the balances map. -/
theorem query_balance_absent (s : Storage) (account : Addr) (d : Denom)
    (h : mayLoad s.balances (account, d) = none) :
    queryBalance s account d = 0 := by
  simp [queryBalance, h]

/-- Witness for C8 on an empty balance table. -/
theorem query_balance_absent_witness :
    queryBalance emptyStorage "account1" "usei" = 0 :=
  query_balance_absent emptyStorage "account1" "usei" (by decide)

/-- C9: a withdrawal of 0 succeeds even with no entry for the caller,
writes back the caller's (unchanged) balance — creating a zero entry when
the key was absent — leaves every other entry untouched, and emits a bank
transfer carrying amount 0; consequently withdraw-all never fails with
`InsufficientBalanceError`. -/
theorem withdraw_zero_total (s : Storage) (sender : Addr) (d : Denom) :
    (∃ s', withdraw s sender 0 d =
        .ok (s', { toAddress := sender, amount := 0, denom := d }) ∧
      s'.state = s.state ∧
      mayLoad s'.balances (sender, d) = some (getBalance s.balances (sender, d)) ∧
      ∀ k, k ≠ (sender, d) → mayLoad s'.balances k = mayLoad s.balances k) ∧
    ∀ bal req, withdrawAll s sender d ≠
      .error (.insufficientBalanceError bal req) := by
  constructor
  · refine ⟨⟨s.state, save s.balances (sender, d) (getBalance s.balances (sender, d) - 0)⟩,
      withdraw_spec s sender 0 d (Nat.zero_le _), rfl, ?_, ?_⟩
    · simp [mayLoad_save_self]
    · intro k hk
      exact mayLoad_save_other s.balances (sender, d) k _ hk
  · intro bal req
    have hwa : withdrawAll s sender d =
        withdraw s sender (getBalance s.balances (sender, d)) d := by
      simp only [withdrawAll, getBalance]
    rw [hwa, withdraw_spec s sender (getBalance s.balances (sender, d)) d le_rfl]
    simp

/-- C4: instantiating with a fee percent above 100 fails with
`InvalidFeePercentageError` carrying the offered value and commits
nothing; instantiating with a fee percent of at most 100 succeeds and
persists `State { owner := caller, fees }`. -/
theorem instantiate_validation (s : Storage) (sender : Addr) (fees : Nat) :
    (100 < fees →
      instantiate s sender fees = some (.error (.invalidFeePercentageError fees)) ∧
      applyInstantiate s sender fees = s) ∧
    (fees ≤ 100 →
      instantiate s sender fees =
        some (.ok (⟨some { owner := sender, fees := fees }, s.balances⟩,
          { method := "instantiate", owner := sender, feesAttr := [fees] }))) := by
  constructor
  · intro hgt
    have hi : instantiate s sender fees =
        some (.error (.invalidFeePercentageError fees)) := by
      simp [instantiate, hgt]
    exact ⟨hi, by simp [applyInstantiate, hi]⟩
  · intro hle
    have h128 : fees < 128 := by omega
    simp [instantiate, Nat.not_lt.2 hle, utf8FromSingleByte, h128]

/-- Witness for C4 at the boundary values 101 and 100. -/
theorem instantiate_validation_witness :
    instantiate { state := none, balances := [] } "creator" 101 =
      some (.error (.invalidFeePercentageError 101)) ∧
    applyInstantiate { state := none, balances := [] } "creator" 101 =
      { state := none, balances := [] } ∧
    instantiate { state := none, balances := [] } "creator" 100 =
      some (.ok (⟨some { owner := "creator", fees := 100 }, []⟩,
        { method := "instantiate", owner := "creator", feesAttr := [100] })) :=
  ⟨((instantiate_validation _ "creator" 101).1 (by decide)).1,
   ((instantiate_validation _ "creator" 101).1 (by decide)).2,
   (instantiate_validation _ "creator" 100).2 (by decide)⟩

/-- C10: once the fee check has passed (`fees ≤ 100`), decoding the
one-byte slice `[fees]` as UTF-8 cannot fail, so `instantiate` never
panics there; the resulting `fees` attribute is the raw byte itself, not
the decimal rendering of the fee. -/
theorem instantiate_fees_attr_utf8 (s : Storage) (sender : Addr) (fees : Nat)
    (h : fees ≤ 100) :
    utf8FromSingleByte fees = some [fees] ∧
    instantiate s sender fees =
      some (.ok (⟨some { owner := sender, fees := fees }, s.balances⟩,
        { method := "instantiate", owner := sender, feesAttr := [fees] })) ∧
    [fees] ≠ decimalBytes fees := by
  have h128 : fees < 128 := by omega
  refine ⟨by simp [utf8FromSingleByte, h128], ?_, ?_⟩
  · simp [instantiate, Nat.not_lt.2 h, utf8FromSingleByte, h128]
  · have hall : ∀ f, f < 101 → [f] ≠ decimalBytes f := by decide
    exact hall fees (by omega)

/-- Witness for C10 at the repository's own test fee of 10 percent. -/
theorem instantiate_fees_attr_utf8_witness :
    utf8FromSingleByte 10 = some [10] ∧
    instantiate { state := none, balances := [] } "creator" 10 =
      some (.ok (⟨some { owner := "creator", fees := 10 }, []⟩,
        { method := "instantiate", owner := "creator", feesAttr := [10] })) ∧
    [10] ≠ decimalBytes 10 :=
  instantiate_fees_attr_utf8 _ "creator" 10 (by decide)

end Transfer
